import Mathlib

/-!
Verification of the GL program-descriptor builder
(`src/gpu/gl/GrGLProgramDesc.cpp`).

The source file's own code is translated directly.  Declarations the file
consumes from elsewhere in the repository (GrTypes.h enums, the processor
classes, `GrProcessorKeyBuilder`, the `GLKeyHeader` layout and the two
fragment-shader-builder helpers) are not part of the source tree given
here; those are modelled from the specification and are marked as such.
-/

namespace GrGLProgramDesc

/-- Modelled from the spec: the color-component flags of `GrTypes.h`
(not in src).  Bit 0 = red, bit 1 = green, bit 2 = blue, bit 3 = alpha;
an "alpha-only" texture has component mask `kA_GrColorComponentFlag`. -/
def kR_GrColorComponentFlag : Nat := 1

/-- Modelled from the spec: green component flag. -/
def kG_GrColorComponentFlag : Nat := 2

/-- Modelled from the spec: blue component flag. -/
def kB_GrColorComponentFlag : Nat := 4

/-- Modelled from the spec: alpha component flag. -/
def kA_GrColorComponentFlag : Nat := 8

/-- Modelled from the spec: the red/green/blue combined mask of `GrTypes.h`. -/
def kRGB_GrColorComponentFlags : Nat :=
  kR_GrColorComponentFlag ||| kG_GrColorComponentFlag ||| kB_GrColorComponentFlag

/-- Modelled from the spec: the capability set consumed by the builder
(`GrGLCaps` / `GrCaps`, not in src): hardware swizzle support,
read-alpha-as-red support, hardware path rendering support, and in-shader
destination-read support. -/
structure GrGLCaps where
  textureSwizzleSupport : Bool
  textureRedSupport : Bool
  pathRenderingSupport : Bool
  dstReadInShaderSupport : Bool
deriving DecidableEq, Repr

/-- `swizzle_requires_alpha_remapping` from GrGLProgramDesc.cpp: do we need
to either map r,g,b->a or a->r for an alpha-only texture. -/
def swizzle_requires_alpha_remapping (caps : GrGLCaps)
    (configComponentMask swizzleComponentMask : Nat) : Bool :=
  if caps.textureSwizzleSupport then
    -- Any remapping is handled using texture swizzling not shader modifications.
    false
  else if configComponentMask = kA_GrColorComponentFlag then
    -- check if the texture is alpha-only
    if caps.textureRedSupport && (kA_GrColorComponentFlag &&& swizzleComponentMask != 0) then
      -- we must map the swizzle a-reads to r.
      true
    else if kRGB_GrColorComponentFlags &&& swizzleComponentMask != 0 then
      -- r, g and/or b reads must be mapped to a.
      true
    else
      false
  else
    false

/-- `kMatrixTypeKeyBits` from the transform-key enum. -/
def kMatrixTypeKeyBits : Nat := 1

/-- `kPrecisionBits` from the transform-key enum. -/
def kPrecisionBits : Nat := 2

/-- `kPrecisionShift` from the transform-key enum. -/
def kPrecisionShift : Nat := kMatrixTypeKeyBits

/-- `kPositionCoords_Flag` from the transform-key enum. -/
def kPositionCoords_Flag : Nat := 1 <<< (kPrecisionShift + kPrecisionBits)

/-- `kDeviceCoords_Flag` from the transform-key enum. -/
def kDeviceCoords_Flag : Nat := kPositionCoords_Flag + kPositionCoords_Flag

/-- `kTransformKeyBits` from the transform-key enum. -/
def kTransformKeyBits : Nat := kMatrixTypeKeyBits + kPrecisionBits + 2

/-- `kNoPersp_MatrixType` from the MatrixType enum. -/
def kNoPersp_MatrixType : Nat := 0

/-- `kGeneral_MatrixType` from the MatrixType enum. -/
def kGeneral_MatrixType : Nat := 1

/-- Modelled from the spec: the shader-language precision enum
(`GrSLPrecision`, not in src).  The source statically asserts
`kHigh_GrSLPrecision < (1 << kPrecisionBits)` and
`kGrSLPrecisionCount <= (1 << kPrecisionBits)`; three levels with values
0, 1, 2 satisfy both. -/
inductive GrSLPrecision where
  | kLow_GrSLPrecision
  | kMedium_GrSLPrecision
  | kHigh_GrSLPrecision
deriving DecidableEq, Repr

/-- Numeric value of a precision level, as used in `precision() << kPrecisionShift`. -/
def GrSLPrecision.toNat : GrSLPrecision → Nat
  | .kLow_GrSLPrecision => 0
  | .kMedium_GrSLPrecision => 1
  | .kHigh_GrSLPrecision => 2

/-- Modelled from the spec: the coordinate-set enum (`GrCoordSet`, not in
src): a coord transform is sourced either from local coordinates or from
device coordinates. -/
inductive GrCoordSet where
  | kLocal_GrCoordSet
  | kDevice_GrCoordSet
deriving DecidableEq, Repr

/-- Modelled from the spec: the data of one `GrCoordTransform` that the key
generator reads (source coordinate set and precision; the numeric matrix
values are never read by the key generator). -/
structure GrCoordTransform where
  sourceCoords : GrCoordSet
  precision : GrSLPrecision
deriving DecidableEq, Repr

/-- Modelled from the spec: the per-transform data of a pending fragment
stage: `stage.isPerspectiveCoordTransform(t)` together with
`stage.processor()->coordTransform(t)`. -/
structure PendingCoordTransform where
  isPerspective : Bool
  coordTransform : GrCoordTransform
deriving DecidableEq, Repr

/-- Modelled from the spec: one texture object as read by the key
generator: an identity (never read) and a pixel-config component mask
(`GrPixelConfigComponentMask(texture->config())`, from GrTypes.h, not in
src).  The mask is the texture's logical "format" for key purposes. -/
structure GrTexture where
  ident : Nat
  configComponentMask : Nat
deriving DecidableEq, Repr

/-- Modelled from the spec: one `GrTextureAccess`: the texture plus the
shader swizzle's component mask (`access.swizzleMask()`). -/
structure GrTextureAccess where
  texture : GrTexture
  swizzleMask : Nat
deriving DecidableEq, Repr

/-- Modelled from the spec: the data of a `GrProcessor` consumed by this
file: the class ID, the private key words the processor appends via
`getGLProcessorKey` (each a 32-bit word), and the texture-access list. -/
structure GrProcessor where
  classID : Nat
  glProcessorKey : List Nat
  textures : List GrTextureAccess
deriving DecidableEq, Repr

/-- Modelled from the spec: a `GrPendingFragmentStage`: its processor and
its coordinate-transform list. -/
structure GrPendingFragmentStage where
  processor : GrProcessor
  transforms : List PendingCoordTransform
deriving DecidableEq, Repr

/-- Body of the loop of `gen_transform_key` for transform `t`, before the
shift: matrix-type bit, then coordinate-source flag, then precision bits. -/
def transform_key_one (c : PendingCoordTransform) (useExplicitLocalCoords : Bool) : Nat :=
  let key1 : Nat := if c.isPerspective then kGeneral_MatrixType else kNoPersp_MatrixType
  let key2 : Nat :=
    if c.coordTransform.sourceCoords == GrCoordSet.kLocal_GrCoordSet && !useExplicitLocalCoords then
      key1 ||| kPositionCoords_Flag
    else if c.coordTransform.sourceCoords == GrCoordSet.kDevice_GrCoordSet then
      key1 ||| kDeviceCoords_Flag
    else
      key1
  key2 ||| (c.coordTransform.precision.toNat <<< kPrecisionShift)

/-- The accumulation loop of `gen_transform_key`.  The pair carries
`totalKey` and a flag recording whether every `SkASSERT(0 == (totalKey
& key))` so far held.  The `% 2 ^ 32` reflects `uint32_t` truncation of
`key <<= kTransformKeyBits * t` (well defined in C++ for shifts below
32; every input considered here shifts by at most 30). -/
def gen_transform_key_go (useExplicitLocalCoords : Bool) :
    List PendingCoordTransform → Nat → Nat × Bool → Nat × Bool
  | [], _, acc => acc
  | c :: rest, t, (totalKey, ok) =>
    let key := ((transform_key_one c useExplicitLocalCoords) <<< (kTransformKeyBits * t)) % 2 ^ 32
    gen_transform_key_go useExplicitLocalCoords rest (t + 1)
      (totalKey ||| key, ok && (totalKey &&& key == 0))

/-- `gen_transform_key` from GrGLProgramDesc.cpp.  Returns the 32-bit key
together with the debug-assertion flag (`true` iff no overlap assertion
fired). -/
def gen_transform_key (stage : GrPendingFragmentStage)
    (useExplicitLocalCoords : Bool) : Nat × Bool :=
  gen_transform_key_go useExplicitLocalCoords stage.transforms 0 (0, true)

/-- The accumulation loop of `gen_texture_key`: bit `t` is set iff texture
access `t` requires an alpha remapping. -/
def gen_texture_key_go (caps : GrGLCaps) :
    List GrTextureAccess → Nat → Nat → Nat
  | [], _, key => key
  | access :: rest, t, key =>
    let configComponentMask := access.texture.configComponentMask
    let key1 :=
      if swizzle_requires_alpha_remapping caps configComponentMask access.swizzleMask then
        key ||| (1 <<< t)
      else
        key
    gen_texture_key_go caps rest (t + 1) key1

/-- `gen_texture_key` from GrGLProgramDesc.cpp. -/
def gen_texture_key (proc : GrProcessor) (caps : GrGLCaps) : Nat :=
  gen_texture_key_go caps proc.textures 0 0

/-- `SK_MaxU16`. -/
def SK_MaxU16 : Nat := 65535

/-- `kMetaKeyInvalidMask = ~((uint32_t) SK_MaxU16)`, i.e. `0xFFFF0000`. -/
def kMetaKeyInvalidMask : Nat := (2 ^ 32 - 1) - SK_MaxU16

/-- `get_meta_key` from GrGLProgramDesc.cpp.  `processorKeySize` is the
builder's byte count for this processor's private key; the spec (§4.3
step 1, §8) fixes it as the number of bytes written into the key buffer
for this stage's private key — `GrProcessorKeyBuilder` itself is not in
src, so that bookkeeping is modelled from the spec and `Build` below
passes the stage's own private-key byte length.  Returns `none` exactly
when the C++ function returns `false` (in which case it appends nothing);
on success it returns the two appended 32-bit words. -/
def get_meta_key (proc : GrProcessor) (caps : GrGLCaps)
    (transformKey processorKeySize : Nat) : Option (List Nat) :=
  let textureKey := gen_texture_key proc caps
  let classID := proc.classID
  if (textureKey ||| transformKey ||| classID) &&& kMetaKeyInvalidMask != 0 then
    none
  else if processorKeySize > SK_MaxU16 then
    none
  else
    some [((textureKey <<< 16) ||| transformKey) % 2 ^ 32,
          ((classID <<< 16) ||| (processorKeySize % 2 ^ 16)) % 2 ^ 32]

/-- `GrProgramDesc::DescInfo` fields read by `Build` (declaration not in
src; modelled from the spec's pipeline flags). -/
structure DescInfo where
  fRequiresLocalCoordAttrib : Bool
  fReadsDst : Bool
  fReadsFragPosition : Bool
deriving DecidableEq, Repr

/-- Modelled from the spec: the draw kind, ordinary versus path-rendering
(`GrGpu::DrawType` and `GrGpu::IsPathRenderingDrawType` are not in src). -/
inductive DrawType where
  | ordinaryDraw
  | pathDraw
deriving DecidableEq, Repr

/-- Modelled from the spec: `GrGpu::IsPathRenderingDrawType`. -/
def IsPathRenderingDrawType : DrawType → Bool
  | .ordinaryDraw => false
  | .pathDraw => true

/-- Modelled from the spec: the pipeline-state view (`GrOptDrawState`)
read by `Build`: primitive processor, ordered fragment stages, transfer
processor, color-stage count, render-target identity, optional
destination-copy texture, and whether a geometry processor is active. -/
structure GrOptDrawState where
  primProc : GrProcessor
  fragmentStages : List GrPendingFragmentStage
  xp : GrProcessor
  numColorStages : Nat
  renderTarget : Nat
  dstCopy : Option GrTexture
  hasGeometryProcessor : Bool
deriving DecidableEq, Repr

/-- `GrOptDrawState::numCoverageStages()`: the fragment stages that are
not color stages. -/
def GrOptDrawState.numCoverageStages (s : GrOptDrawState) : Nat :=
  s.fragmentStages.length - s.numColorStages

/-- Modelled from the spec: `GrGLFragmentShaderBuilder::KeyForDstRead`
(not in src).  The spec requires a nonzero encoding determined by the
destination-copy texture's format (or a capability-dependent value when
no copy texture is bound) and stable for equal inputs. -/
def KeyForDstRead : Option GrTexture → GrGLCaps → Nat
  | none, _ => 1
  | some tex, _ => 2 + tex.configComponentMask

/-- Modelled from the spec: `GrGLFragmentShaderBuilder::KeyForFragmentPosition`
(not in src).  The spec requires a nonzero, render-target- and
capability-dependent encoding, stable for equal inputs. -/
def KeyForFragmentPosition (renderTarget : Nat) (_caps : GrGLCaps) : Nat :=
  renderTarget % 2 + 1

/-- Modelled from the spec: the `GLKeyHeader` fields populated by `Build`
(the struct layout is not in src). -/
structure GLKeyHeader where
  fUseNvpr : Bool
  fDstReadKey : Nat
  fFragPosKey : Nat
  fColorEffectCnt : Nat
  fCoverageEffectCnt : Nat
deriving DecidableEq, Repr

/-- Modelled from the spec: serialization of the fixed-size header zone
(`memset` to zero, then field stores).  Slots 5-7 are the padding, always
zero. -/
def headerWords (h : GLKeyHeader) : List Nat :=
  [(if h.fUseNvpr then 1 else 0), h.fDstReadKey, h.fFragPosKey,
   h.fColorEffectCnt, h.fCoverageEffectCnt, 0, 0, 0]

/-- Number of words in the reserved header zone (`kProcessorKeysOffset`
in words); constant across builds. -/
def kHeaderWordCount : Nat := 8

/-- Result of `Build`: the C++ return value, the final contents of
`desc->fKey` (as 32-bit words; reset to `[]` on failure), and the
conjunction of the debug-only `SkASSERT` conditions evaluated while
populating the header. -/
structure BuildResult where
  success : Bool
  fKey : List Nat
  debugAssertsOk : Bool
deriving DecidableEq, Repr

/-- The fragment-stage loop of `Build`: for each pending fragment stage,
append its private key, then its meta key computed with that stage's
transform key; fail (and let `Build` reset the buffer) if any meta key
fails. -/
def buildFragmentStages (caps : GrGLCaps) (requiresLocalCoordAttrib : Bool) :
    List GrPendingFragmentStage → Option (List Nat)
  | [] => some []
  | fps :: rest =>
    match get_meta_key fps.processor caps
        (gen_transform_key fps requiresLocalCoordAttrib).1
        (4 * fps.processor.glProcessorKey.length) with
    | none => none
    | some meta =>
      match buildFragmentStages caps requiresLocalCoordAttrib rest with
      | none => none
      | some restWords => some (fps.processor.glProcessorKey ++ meta ++ restWords)

/-- `GrGLProgramDescBuilder::Build` from GrGLProgramDesc.cpp: reserve the
header zone, append private key and meta key for the primitive processor
(transform key 0), each fragment stage, and the transfer processor
(transform key 0) — resetting the buffer and failing if any meta key
fails — then fill in the header.  The three header-population `SkASSERT`s
(no geometry processor under NVPR, dst-copy presence, nonzero dst-read
key) are collected into `debugAssertsOk`. -/
def Build (optState : GrOptDrawState) (descInfo : DescInfo)
    (drawType : DrawType) (caps : GrGLCaps) : BuildResult :=
  let requiresLocalCoordAttrib := descInfo.fRequiresLocalCoordAttrib
  match get_meta_key optState.primProc caps 0
      (4 * optState.primProc.glProcessorKey.length) with
  | none => ⟨false, [], true⟩
  | some primMeta =>
    match buildFragmentStages caps requiresLocalCoordAttrib optState.fragmentStages with
    | none => ⟨false, [], true⟩
    | some fragWords =>
      match get_meta_key optState.xp caps 0
          (4 * optState.xp.glProcessorKey.length) with
      | none => ⟨false, [], true⟩
      | some xpMeta =>
        let isPathRendering := IsPathRenderingDrawType drawType
        let useNvpr := caps.pathRenderingSupport && isPathRendering
        let assertNvpr := !useNvpr || !optState.hasGeometryProcessor
        let dstReadKey :=
          if descInfo.fReadsDst then KeyForDstRead optState.dstCopy caps else 0
        let assertDstCopy :=
          !descInfo.fReadsDst || (optState.dstCopy.isSome || caps.dstReadInShaderSupport)
        let assertDstKey := !descInfo.fReadsDst || (dstReadKey != 0)
        let fragPosKey :=
          if descInfo.fReadsFragPosition then
            KeyForFragmentPosition optState.renderTarget caps
          else 0
        let header : GLKeyHeader :=
          ⟨useNvpr, dstReadKey, fragPosKey, optState.numColorStages,
           optState.numCoverageStages⟩
        ⟨true,
         headerWords header ++
           (optState.primProc.glProcessorKey ++ primMeta ++ fragWords ++
            optState.xp.glProcessorKey ++ xpMeta),
         assertNvpr && assertDstCopy && assertDstKey⟩

/-! ### Generic bit lemmas -/

theorem and_mul_pow_eq_zero {a k : Nat} (m : Nat) (ha : a < 2 ^ k) :
    a &&& 2 ^ k * m = 0 := by
  apply Nat.eq_of_testBit_eq
  intro i
  simp only [Nat.testBit_and, Nat.zero_testBit]
  rcases Nat.lt_or_ge i k with h | h
  · rw [Nat.testBit_mul_pow_two]
    simp [Nat.not_le_of_lt h]
  · rw [Nat.testBit_lt_two_pow (lt_of_lt_of_le ha (Nat.pow_le_pow_right (by omega) h))]
    simp

theorem or_eq_add_of_lt_of_dvd {a b k : Nat} (ha : a < 2 ^ k) (hb : 2 ^ k ∣ b) :
    a ||| b = a + b := by
  obtain ⟨m, rfl⟩ := hb
  rw [Nat.or_comm, ← Nat.mul_add_lt_is_or ha, Nat.add_comm]

/-! ### C2: swizzle-remap truth table -/

/-- C2: `swizzle_requires_alpha_remapping` returns false whenever hardware
swizzle support is present; with it absent and the component mask equal to
alpha-only it returns true exactly when the shader swizzle reads alpha
with read-alpha-as-red support enabled or reads any of red/green/blue
(hence false for a swizzle reading only alpha without red support); and it
returns false whenever the component mask is not alpha-only. -/
theorem swizzle_requires_alpha_remapping_truth_table (caps : GrGLCaps)
    (configComponentMask swizzleComponentMask : Nat) :
    (caps.textureSwizzleSupport = true →
      swizzle_requires_alpha_remapping caps configComponentMask swizzleComponentMask = false)
  ∧ (caps.textureSwizzleSupport = false →
      configComponentMask = kA_GrColorComponentFlag →
      (swizzle_requires_alpha_remapping caps configComponentMask swizzleComponentMask = true ↔
        ((caps.textureRedSupport = true ∧ kA_GrColorComponentFlag &&& swizzleComponentMask ≠ 0)
          ∨ kRGB_GrColorComponentFlags &&& swizzleComponentMask ≠ 0)))
  ∧ (configComponentMask ≠ kA_GrColorComponentFlag →
      swizzle_requires_alpha_remapping caps configComponentMask swizzleComponentMask = false) := by
  unfold swizzle_requires_alpha_remapping
  refine ⟨fun hs => by simp [hs], fun hs hm => ?_, fun hm => ?_⟩
  · simp only [hs, if_false, hm, if_true]
    by_cases hr : caps.textureRedSupport <;>
      by_cases ha : kA_GrColorComponentFlag &&& swizzleComponentMask = 0 <;>
        by_cases hrgb : kRGB_GrColorComponentFlags &&& swizzleComponentMask = 0 <;>
          simp [hr, ha, hrgb]
  · by_cases hs : caps.textureSwizzleSupport <;> simp [hs, hm]

/-! ### C7: atomicity of Build on recoverable failure -/

/-- C7: `Build` fails exactly when the meta-key encoding of the primitive
stage, some fragment stage, or the transfer stage fails, and on failure
the key buffer is reset to empty, so no partial key is observable. -/
theorem Build_failure_resets_key (optState : GrOptDrawState) (descInfo : DescInfo)
    (drawType : DrawType) (caps : GrGLCaps) :
    ((Build optState descInfo drawType caps).success = false ↔
      (get_meta_key optState.primProc caps 0
          (4 * optState.primProc.glProcessorKey.length) = none
        ∨ buildFragmentStages caps descInfo.fRequiresLocalCoordAttrib
            optState.fragmentStages = none
        ∨ get_meta_key optState.xp caps 0
            (4 * optState.xp.glProcessorKey.length) = none))
  ∧ ((Build optState descInfo drawType caps).success = false →
      (Build optState descInfo drawType caps).fKey = []) := by
  unfold Build
  rcases hp : get_meta_key optState.primProc caps 0
      (4 * optState.primProc.glProcessorKey.length) with _ | primMeta
  · simp [hp]
  · rcases hf : buildFragmentStages caps descInfo.fRequiresLocalCoordAttrib
        optState.fragmentStages with _ | fragWords
    · simp [hp, hf]
    · rcases hx : get_meta_key optState.xp caps 0
          (4 * optState.xp.glProcessorKey.length) with _ | xpMeta
      · simp [hp, hf, hx]
      · simp [hp, hf, hx]

theorem and_or_self_left (a b : Nat) : a &&& (a ||| b) = a := by
  apply Nat.eq_of_testBit_eq
  intro i
  simp only [Nat.testBit_and, Nat.testBit_or]
  cases a.testBit i <;> simp

theorem lt_two_pow_of_or_lt_left {a b n : Nat} (h : a ||| b < 2 ^ n) : a < 2 ^ n := by
  rw [← and_or_self_left a b]
  exact Nat.and_lt_two_pow a h

theorem lt_two_pow_of_or_lt_right {a b n : Nat} (h : a ||| b < 2 ^ n) : b < 2 ^ n := by
  rw [Nat.or_comm] at h
  exact lt_two_pow_of_or_lt_left h

theorem and_invalidMask_eq_zero_iff {x : Nat} (hx : x < 2 ^ 32) :
    x &&& kMetaKeyInvalidMask = 0 ↔ x < 2 ^ 16 := by
  constructor
  · intro h
    by_contra hge
    push_neg at hge
    have hqlt : x >>> 16 < 2 ^ 16 := by
      rw [Nat.shiftRight_eq_div_pow]
      omega
    have hq : x >>> 16 ≠ 0 := by
      rw [Nat.shiftRight_eq_div_pow]
      have : 2 ^ 16 ≤ x := hge
      intro h0
      omega
    obtain ⟨i, hbit, _⟩ := Nat.exists_most_significant_bit hq
    have hi16 : i < 16 := by
      by_contra hge16
      push_neg at hge16
      rw [Nat.testBit_lt_two_pow
        (lt_of_lt_of_le hqlt (Nat.pow_le_pow_right (by omega) hge16))] at hbit
      exact Bool.false_ne_true hbit
    have hxbit : x.testBit (16 + i) = true := by
      rw [← Nat.testBit_shiftRight]
      exact hbit
    have hall : (x &&& kMetaKeyInvalidMask).testBit (16 + i) = true := by
      rw [show kMetaKeyInvalidMask = (2 ^ 16 - 1) <<< 16 from rfl, Nat.testBit_and,
        Nat.testBit_shiftLeft, hxbit, show 16 + i - 16 = i from by omega,
        Nat.testBit_two_pow_sub_one]
      simp [hi16]
    rw [h] at hall
    simp at hall
  · intro h
    rw [show kMetaKeyInvalidMask = 2 ^ 16 * (2 ^ 16 - 1) from rfl]
    exact and_mul_pow_eq_zero _ h

/-! ### C3: meta-key encoding contract -/

/-- C3: `get_meta_key` fails exactly when `textureKey`, `transformKey` or
`classID` needs more than 16 bits or the private-key byte count exceeds
16 bits; otherwise it produces exactly the two 32-bit words
`(textureKey << 16) | transformKey` and `(classID << 16) | priorSize`
(and in the failure case it produces nothing). -/
theorem get_meta_key_contract (proc : GrProcessor) (caps : GrGLCaps)
    (transformKey processorKeySize : Nat)
    (htex : gen_texture_key proc caps < 2 ^ 32)
    (htk : transformKey < 2 ^ 32)
    (hcid : proc.classID < 2 ^ 32) :
    (get_meta_key proc caps transformKey processorKeySize = none ↔
      (2 ^ 16 ≤ gen_texture_key proc caps ∨ 2 ^ 16 ≤ transformKey
        ∨ 2 ^ 16 ≤ proc.classID ∨ 2 ^ 16 ≤ processorKeySize))
  ∧ (get_meta_key proc caps transformKey processorKeySize = none
      ∨ get_meta_key proc caps transformKey processorKeySize =
          some [((gen_texture_key proc caps) <<< 16) ||| transformKey,
                (proc.classID <<< 16) ||| processorKeySize]) := by
  have hor : gen_texture_key proc caps ||| transformKey ||| proc.classID < 2 ^ 32 :=
    Nat.or_lt_two_pow (Nat.or_lt_two_pow htex htk) hcid
  have hiff :
      ((gen_texture_key proc caps ||| transformKey ||| proc.classID) &&&
          kMetaKeyInvalidMask = 0) ↔
        (gen_texture_key proc caps < 2 ^ 16 ∧ transformKey < 2 ^ 16 ∧
          proc.classID < 2 ^ 16) := by
    rw [and_invalidMask_eq_zero_iff hor]
    constructor
    · intro h
      exact ⟨lt_two_pow_of_or_lt_left (lt_two_pow_of_or_lt_left h),
        lt_two_pow_of_or_lt_right (lt_two_pow_of_or_lt_left h),
        lt_two_pow_of_or_lt_right h⟩
    · rintro ⟨h1, h2, h3⟩
      exact Nat.or_lt_two_pow (Nat.or_lt_two_pow h1 h2) h3
  by_cases hA : (gen_texture_key proc caps ||| transformKey ||| proc.classID) &&&
      kMetaKeyInvalidMask = 0
  · have hA3 := hiff.mp hA
    by_cases hB : processorKeySize > SK_MaxU16
    · have hgmk : get_meta_key proc caps transformKey processorKeySize = none := by
        unfold get_meta_key
        rw [if_neg (by simp [hA]), if_pos hB]
      rw [hgmk]
      refine ⟨⟨fun _ => ?_, fun _ => rfl⟩, Or.inl rfl⟩
      have hp16 : 2 ^ 16 ≤ processorKeySize := by
        unfold SK_MaxU16 at hB
        omega
      exact Or.inr (Or.inr (Or.inr hp16))
    · have hmod : processorKeySize % 2 ^ 16 = processorKeySize := by
        apply Nat.mod_eq_of_lt
        unfold SK_MaxU16 at hB
        omega
      have hw1 : ((gen_texture_key proc caps <<< 16) ||| transformKey) < 2 ^ 32 := by
        apply Nat.or_lt_two_pow _ htk
        rw [Nat.shiftLeft_eq]
        calc gen_texture_key proc caps * 2 ^ 16
            < 2 ^ 16 * 2 ^ 16 := mul_lt_mul_of_pos_right hA3.1 (by positivity)
          _ ≤ 2 ^ 32 := by norm_num
      have hw2 : ((proc.classID <<< 16) ||| processorKeySize) < 2 ^ 32 := by
        apply Nat.or_lt_two_pow
        · rw [Nat.shiftLeft_eq]
          calc proc.classID * 2 ^ 16
              < 2 ^ 16 * 2 ^ 16 := mul_lt_mul_of_pos_right hA3.2.2 (by positivity)
            _ ≤ 2 ^ 32 := by norm_num
        · calc processorKeySize ≤ SK_MaxU16 := by omega
            _ < 2 ^ 32 := by unfold SK_MaxU16; norm_num
      have hgmk : get_meta_key proc caps transformKey processorKeySize =
          some [((gen_texture_key proc caps) <<< 16) ||| transformKey,
                (proc.classID <<< 16) ||| processorKeySize] := by
        unfold get_meta_key
        rw [if_neg (by simp [hA]), if_neg hB, hmod, Nat.mod_eq_of_lt hw1,
          Nat.mod_eq_of_lt hw2]
      rw [hgmk]
      constructor
      · constructor
        · intro h
          exact absurd h (by simp)
        · intro h
          rcases h with h | h | h | h
          · exact absurd hA3.1 (by omega)
          · exact absurd hA3.2.1 (by omega)
          · exact absurd hA3.2.2 (by omega)
          · unfold SK_MaxU16 at hB
            omega
      · exact Or.inr rfl
  · have hgmk : get_meta_key proc caps transformKey processorKeySize = none := by
      unfold get_meta_key
      rw [if_pos (bne_iff_ne.mpr hA)]
    rw [hgmk]
    refine ⟨⟨fun _ => ?_, fun _ => rfl⟩, Or.inl rfl⟩
    have hnall : ¬(gen_texture_key proc caps < 2 ^ 16 ∧ transformKey < 2 ^ 16 ∧
        proc.classID < 2 ^ 16) := fun hc => hA (hiff.mpr hc)
    by_cases h1 : gen_texture_key proc caps < 2 ^ 16
    · by_cases h2 : transformKey < 2 ^ 16
      · refine Or.inr (Or.inr (Or.inl ?_))
        by_contra h3
        exact hnall ⟨h1, h2, by omega⟩
      · exact Or.inr (Or.inl (by omega))
    · exact Or.inl (by omega)

/-- Example capability set: no hardware swizzle, red support on. -/
def capsNoHW : GrGLCaps := ⟨false, true, false, false⟩

/-- Example processor: class ID 3, a one-word private key, one alpha-only
texture whose shader swizzle reads alpha. -/
def procEx : GrProcessor :=
  ⟨3, [0], [⟨⟨0, kA_GrColorComponentFlag⟩, kA_GrColorComponentFlag⟩]⟩

/-- C3 witness: the contract evaluated on a concrete processor. -/
theorem get_meta_key_contract_witness :
    (gen_texture_key procEx capsNoHW < 2 ^ 32 ∧ (5 : Nat) < 2 ^ 32 ∧
      procEx.classID < 2 ^ 32)
  ∧ ((get_meta_key procEx capsNoHW 5 4 = none ↔
      (2 ^ 16 ≤ gen_texture_key procEx capsNoHW ∨ 2 ^ 16 ≤ (5 : Nat)
        ∨ 2 ^ 16 ≤ procEx.classID ∨ 2 ^ 16 ≤ (4 : Nat)))
  ∧ (get_meta_key procEx capsNoHW 5 4 = none
      ∨ get_meta_key procEx capsNoHW 5 4 =
          some [((gen_texture_key procEx capsNoHW) <<< 16) ||| 5,
                (procEx.classID <<< 16) ||| 4])) :=
  ⟨⟨by decide, by decide, by decide⟩,
    get_meta_key_contract procEx capsNoHW 5 4 (by decide) (by decide) (by decide)⟩

/-! ### C5: capacity boundary of the transform key -/

/-- A perspective transform sourced from local coords at high precision. -/
def trPerspHigh : PendingCoordTransform :=
  ⟨true, ⟨GrCoordSet.kLocal_GrCoordSet, GrSLPrecision.kHigh_GrSLPrecision⟩⟩

/-- The same transform at low precision. -/
def trPerspLow : PendingCoordTransform :=
  ⟨true, ⟨GrCoordSet.kLocal_GrCoordSet, GrSLPrecision.kLow_GrSLPrecision⟩⟩

/-- A fragment stage declaring 7 coordinate transforms (one more than the
32 / kTransformKeyBits = 6 that fit). -/
def stageSeven : GrPendingFragmentStage := ⟨⟨3, [0], []⟩, List.replicate 7 trPerspHigh⟩

/-- The same stage with the 7th transform's precision changed. -/
def stageSevenB : GrPendingFragmentStage :=
  ⟨⟨3, [0], []⟩, List.replicate 6 trPerspHigh ++ [trPerspLow]⟩

/-- C5: evaluation at the failing input.  With one transform more than the
`32 / kTransformKeyBits = 6` capacity, the overlap assertion does NOT
fire (the 7th field is truncated into bits 30-31, disjoint from bits
0-29) and a key is silently produced; two stages differing only in the
7th transform's precision collide on the same key.  This contradicts the
claimed behavior that the overlap assertion fires instead of silently
producing a key. -/
theorem transform_key_seven_transforms_silent :
    32 / kTransformKeyBits = 6
  ∧ stageSeven.transforms.length = 32 / kTransformKeyBits + 1
  ∧ stageSevenB.transforms.length = 32 / kTransformKeyBits + 1
  ∧ stageSeven ≠ stageSevenB
  ∧ (gen_transform_key stageSeven false).2 = true
  ∧ (gen_transform_key stageSevenB false).2 = true
  ∧ (gen_transform_key stageSeven false).1 = (gen_transform_key stageSevenB false).1 := by
  refine ⟨rfl, rfl, rfl, by decide, by decide, by decide, by decide⟩

/-! ### Transform-key structure lemmas -/

/-- Default transform used only as the `List.getD` fallback in statements. -/
def defaultTransform : PendingCoordTransform :=
  ⟨false, ⟨GrCoordSet.kLocal_GrCoordSet, GrSLPrecision.kLow_GrSLPrecision⟩⟩

/-- The OR-of-shifted-fields value accumulated by `gen_transform_key_go`. -/
def orFields (u : Bool) : List PendingCoordTransform → Nat → Nat
  | [], _ => 0
  | c :: rest, t =>
    ((transform_key_one c u <<< (kTransformKeyBits * t)) % 2 ^ 32) ||| orFields u rest (t + 1)

/-- The same value as a sum, valid while no truncation occurs. -/
def sumFields (u : Bool) : List PendingCoordTransform → Nat → Nat
  | [], _ => 0
  | c :: rest, t =>
    transform_key_one c u * 2 ^ (kTransformKeyBits * t) + sumFields u rest (t + 1)

theorem transform_key_one_lt (c : PendingCoordTransform) (u : Bool) :
    transform_key_one c u < 32 := by
  rcases c with ⟨p, src, prec⟩
  cases p <;> cases src <;> cases prec <;> cases u <;> decide

theorem kTransformKeyBits_eq : kTransformKeyBits = 5 := rfl

theorem gen_transform_key_go_fst (u : Bool) (cs : List PendingCoordTransform) :
    ∀ t total ok, (gen_transform_key_go u cs t (total, ok)).1 = total ||| orFields u cs t := by
  induction cs with
  | nil =>
    intro t total ok
    simp [gen_transform_key_go, orFields]
  | cons c rest ih =>
    intro t total ok
    rw [gen_transform_key_go, ih, orFields, ← Nat.or_assoc]

theorem field_mul_lt (c : PendingCoordTransform) (u : Bool) (t : Nat) :
    transform_key_one c u * 2 ^ (kTransformKeyBits * t) <
      2 ^ (kTransformKeyBits * (t + 1)) := by
  calc transform_key_one c u * 2 ^ (kTransformKeyBits * t)
      < 32 * 2 ^ (kTransformKeyBits * t) :=
        mul_lt_mul_of_pos_right (transform_key_one_lt c u)
          (Nat.pos_pow_of_pos _ (by omega))
    _ = 2 ^ (kTransformKeyBits * (t + 1)) := by
        rw [kTransformKeyBits_eq, show 5 * (t + 1) = 5 * t + 5 from by omega, pow_add]
        ring

theorem field_mul_lt32 (c : PendingCoordTransform) (u : Bool) {t : Nat} (ht : t ≤ 5) :
    transform_key_one c u * 2 ^ (kTransformKeyBits * t) < 2 ^ 32 := by
  calc transform_key_one c u * 2 ^ (kTransformKeyBits * t)
      < 2 ^ (kTransformKeyBits * (t + 1)) := field_mul_lt c u t
    _ ≤ 2 ^ 30 := by
        apply Nat.pow_le_pow_right (by omega)
        rw [kTransformKeyBits_eq]
        omega
    _ ≤ 2 ^ 32 := by norm_num

theorem sumFields_dvd (u : Bool) (cs : List PendingCoordTransform) :
    ∀ t, 2 ^ (kTransformKeyBits * t) ∣ sumFields u cs t := by
  induction cs with
  | nil =>
    intro t
    simp [sumFields]
  | cons c rest ih =>
    intro t
    rw [sumFields]
    refine Nat.dvd_add (dvd_mul_left _ _) (dvd_trans ?_ (ih (t + 1)))
    exact pow_dvd_pow 2 (Nat.mul_le_mul_left _ (by omega))

theorem sumFields_le (u : Bool) (cs : List PendingCoordTransform) :
    ∀ t, sumFields u cs t ≤
      2 ^ (kTransformKeyBits * (t + cs.length)) - 2 ^ (kTransformKeyBits * t) := by
  induction cs with
  | nil =>
    intro t
    simp [sumFields]
  | cons c rest ih =>
    intro t
    rw [sumFields]
    have hlc : (c :: rest).length = rest.length + 1 := List.length_cons c rest
    have hf : transform_key_one c u ≤ 31 := by
      have := transform_key_one_lt c u
      omega
    have hfA : transform_key_one c u * 2 ^ (kTransformKeyBits * t) ≤
        31 * 2 ^ (kTransformKeyBits * t) :=
      Nat.mul_le_mul_right _ hf
    have hS := ih (t + 1)
    have hB : 2 ^ (kTransformKeyBits * (t + 1)) = 32 * 2 ^ (kTransformKeyBits * t) := by
      rw [kTransformKeyBits_eq, show 5 * (t + 1) = 5 * t + 5 from by omega, pow_add]
      ring
    have hBC : 2 ^ (kTransformKeyBits * (t + 1)) ≤
        2 ^ (kTransformKeyBits * (t + (c :: rest).length)) := by
      apply Nat.pow_le_pow_right (by omega)
      exact Nat.mul_le_mul_left _ (by omega)
    have hlen : (t + 1) + rest.length = t + (c :: rest).length := by omega
    rw [hlen] at hS
    omega

theorem sumFields_lt (u : Bool) (cs : List PendingCoordTransform) (t : Nat) :
    sumFields u cs t < 2 ^ (kTransformKeyBits * (t + cs.length)) := by
  have h := sumFields_le u cs t
  have hpos : 0 < 2 ^ (kTransformKeyBits * t) := Nat.pos_pow_of_pos _ (by omega)
  have hle : 2 ^ (kTransformKeyBits * t) ≤ 2 ^ (kTransformKeyBits * (t + cs.length)) := by
    apply Nat.pow_le_pow_right (by omega)
    exact Nat.mul_le_mul_left _ (by omega)
  omega

theorem orFields_eq_sumFields (u : Bool) (cs : List PendingCoordTransform) :
    ∀ t, t + cs.length ≤ 6 → orFields u cs t = sumFields u cs t := by
  induction cs with
  | nil =>
    intro t _
    simp [orFields, sumFields]
  | cons c rest ih =>
    intro t hlen
    have hlc : (c :: rest).length = rest.length + 1 := List.length_cons c rest
    have hlen6 : t + 1 + rest.length ≤ 6 := by omega
    have ht5 : t ≤ 5 := by omega
    rw [orFields, sumFields, ih (t + 1) hlen6,
      Nat.shiftLeft_eq, Nat.mod_eq_of_lt (field_mul_lt32 c u ht5)]
    exact or_eq_add_of_lt_of_dvd (field_mul_lt c u t) (sumFields_dvd u rest (t + 1))

theorem gen_transform_key_eq_sumFields (u : Bool) (stage : GrPendingFragmentStage)
    (h : stage.transforms.length ≤ 6) :
    (gen_transform_key stage u).1 = sumFields u stage.transforms 0 := by
  rw [gen_transform_key, gen_transform_key_go_fst, Nat.zero_or,
    orFields_eq_sumFields u stage.transforms 0 (by omega)]

theorem gen_transform_key_go_snd (u : Bool) (cs : List PendingCoordTransform) :
    ∀ t total, t + cs.length ≤ 6 → total < 2 ^ (kTransformKeyBits * t) →
      (gen_transform_key_go u cs t (total, true)).2 = true := by
  induction cs with
  | nil =>
    intro t total _ _
    simp [gen_transform_key_go]
  | cons c rest ih =>
    intro t total hlen htotal
    have hlc : (c :: rest).length = rest.length + 1 := List.length_cons c rest
    have hlen6 : t + 1 + rest.length ≤ 6 := by omega
    have ht5 : t ≤ 5 := by omega
    rw [gen_transform_key_go]
    have hkey : ((transform_key_one c u <<< (kTransformKeyBits * t)) % 2 ^ 32) =
        transform_key_one c u * 2 ^ (kTransformKeyBits * t) := by
      rw [Nat.shiftLeft_eq, Nat.mod_eq_of_lt (field_mul_lt32 c u ht5)]
    have hand : total &&& transform_key_one c u * 2 ^ (kTransformKeyBits * t) = 0 := by
      rw [mul_comm]
      exact and_mul_pow_eq_zero _ htotal
    have htotal1 : total ||| transform_key_one c u * 2 ^ (kTransformKeyBits * t) <
        2 ^ (kTransformKeyBits * (t + 1)) := by
      apply Nat.or_lt_two_pow _ (field_mul_lt c u t)
      calc total < 2 ^ (kTransformKeyBits * t) := htotal
        _ ≤ 2 ^ (kTransformKeyBits * (t + 1)) := by
            apply Nat.pow_le_pow_right (by omega)
            exact Nat.mul_le_mul_left _ (by omega)
    simp only [hkey, hand, beq_self_eq_true, Bool.and_true]
    exact ih (t + 1) _ hlen6 htotal1

theorem sumFields_slice (u : Bool) (cs : List PendingCoordTransform) :
    ∀ t i, i < cs.length →
      sumFields u cs t / 2 ^ (kTransformKeyBits * (t + i)) % 32 =
        transform_key_one (cs.getD i defaultTransform) u := by
  induction cs with
  | nil =>
    intro t i hi
    simp at hi
  | cons c rest ih =>
    intro t i hi
    have hBpos : 0 < 2 ^ (kTransformKeyBits * (t + 1)) := Nat.pos_pow_of_pos _ (by omega)
    have hApos : 0 < 2 ^ (kTransformKeyBits * t) := Nat.pos_pow_of_pos _ (by omega)
    obtain ⟨m, hm⟩ := sumFields_dvd u rest (t + 1)
    cases i with
    | zero =>
      rw [sumFields, List.getD_cons_zero, hm]
      have hsplit : 2 ^ (kTransformKeyBits * (t + 1)) =
          2 ^ (kTransformKeyBits * t) * 32 := by
        rw [kTransformKeyBits_eq, show 5 * (t + 1) = 5 * t + 5 from by omega, pow_add]
        norm_num
      have hfactor : transform_key_one c u * 2 ^ (kTransformKeyBits * t) +
          2 ^ (kTransformKeyBits * t) * 32 * m =
            2 ^ (kTransformKeyBits * t) * (transform_key_one c u + 32 * m) := by
        ring
      rw [hsplit, hfactor, show t + 0 = t from by omega,
        Nat.mul_div_cancel_left _ hApos,
        Nat.add_mul_mod_self_left, Nat.mod_eq_of_lt (transform_key_one_lt c u)]
    | succ j =>
      have hlc : (c :: rest).length = rest.length + 1 := List.length_cons c rest
      have hi1 : j < rest.length := by omega
      have hidx : t + (j + 1) = t + 1 + j := by omega
      have hnum : (transform_key_one c u * 2 ^ (kTransformKeyBits * t) +
            sumFields u rest (t + 1)) / 2 ^ (kTransformKeyBits * (t + 1)) =
          sumFields u rest (t + 1) / 2 ^ (kTransformKeyBits * (t + 1)) := by
        rw [hm, Nat.add_mul_div_left _ _ hBpos, Nat.div_eq_of_lt (field_mul_lt c u t),
          Nat.zero_add, Nat.mul_div_cancel_left _ hBpos]
      have hD : (2 : Nat) ^ (kTransformKeyBits * (t + 1 + j)) =
          2 ^ (kTransformKeyBits * (t + 1)) * 2 ^ (kTransformKeyBits * j) := by
        rw [← pow_add, ← Nat.mul_add]
      rw [sumFields, List.getD_cons_succ, hidx, hD, ← Nat.div_div_eq_div_mul, hnum,
        Nat.div_div_eq_div_mul, ← hD]
      exact ih (t + 1) j hi1

theorem slice_testBit {x n f : Nat} (h : x / 2 ^ n % 32 = f) {k : Nat} (hk : k < 5) :
    x.testBit (n + k) = f.testBit k := by
  rw [Nat.testBit_to_div_mod, Nat.testBit_to_div_mod]
  have h1 : x / 2 ^ (n + k) = x / 2 ^ n / 2 ^ k := by
    rw [pow_add, Nat.div_div_eq_div_mul]
  have h2 : f / 2 ^ k % 2 = x / 2 ^ n / 2 ^ k % 2 := by
    subst h
    have hk5 : k + (5 - k) = 5 := by omega
    have h32 : (32 : Nat) = 2 ^ k * 2 ^ (5 - k) := by
      rw [← pow_add, hk5]
      norm_num
    rw [h32, Nat.mod_mul_right_div_self]
    exact Nat.mod_mod_of_dvd _ (dvd_pow_self 2 (by omega))
  rw [h1, h2]

theorem slice_bits12 {x n f : Nat} (h : x / 2 ^ n % 32 = f) :
    (x >>> (n + 1)) &&& 3 = f / 2 % 4 := by
  rw [Nat.shiftRight_eq_div_pow, show (3 : Nat) = 2 ^ 2 - 1 from rfl,
    Nat.and_pow_two_sub_one_eq_mod]
  have h1 : x / 2 ^ (n + 1) = x / 2 ^ n / 2 := by
    rw [pow_succ, Nat.div_div_eq_div_mul]
  subst h
  rw [h1, show (32 : Nat) = 2 * 16 from rfl, Nat.mod_mul_right_div_self,
    Nat.mod_mod_of_dvd _ (by norm_num : (4 : Nat) ∣ 16)]

theorem or_field_absorb {K n f : Nat} (hf : f < 32) (h : K / 2 ^ n % 32 = f) :
    K ||| (f <<< n) = K := by
  apply Nat.eq_of_testBit_eq
  intro i
  rw [Nat.testBit_or, Nat.testBit_shiftLeft]
  by_cases hge : n ≤ i
  · have hg : (decide (i ≥ n)) = true := decide_eq_true hge
    rw [hg, Bool.true_and]
    by_cases hlt : i - n < 5
    · have hbk : K.testBit i = f.testBit (i - n) := by
        have hsl := slice_testBit h hlt
        rwa [show n + (i - n) = i from by omega] at hsl
      rw [hbk]
      cases f.testBit (i - n) <;> simp
    · have hf5 : f.testBit (i - n) = false :=
        Nat.testBit_lt_two_pow (lt_of_lt_of_le hf (by
          calc (32 : Nat) = 2 ^ 5 := by norm_num
            _ ≤ 2 ^ (i - n) := Nat.pow_le_pow_right (by omega) (by omega)))
      rw [hf5, Bool.or_false]
  · have hg : (decide (i ≥ n)) = false := decide_eq_false hge
    rw [hg, Bool.false_and, Bool.or_false]

theorem transform_key_one_bits (c : PendingCoordTransform) (u : Bool) :
    ((transform_key_one c u).testBit 0 = c.isPerspective)
  ∧ (transform_key_one c u / 2 % 4 = c.coordTransform.precision.toNat)
  ∧ ((transform_key_one c u).testBit 3 =
      (c.coordTransform.sourceCoords == GrCoordSet.kLocal_GrCoordSet && !u))
  ∧ ((transform_key_one c u).testBit 4 =
      (c.coordTransform.sourceCoords == GrCoordSet.kDevice_GrCoordSet)) := by
  rcases c with ⟨p, src, prec⟩
  cases p <;> cases src <;> cases prec <;> cases u <;> decide

theorem shifted_fields_disjoint_lt {a : Nat} (b : Nat) {i j : Nat}
    (ha : a < 32) (hij : i < j) :
    (a <<< (kTransformKeyBits * i)) &&& (b <<< (kTransformKeyBits * j)) = 0 := by
  rw [Nat.shiftLeft_eq, Nat.shiftLeft_eq, mul_comm b]
  refine and_mul_pow_eq_zero _ ?_
  calc a * 2 ^ (kTransformKeyBits * i)
      < 32 * 2 ^ (kTransformKeyBits * i) :=
        mul_lt_mul_of_pos_right ha (Nat.pos_pow_of_pos _ (by omega))
    _ = 2 ^ (kTransformKeyBits * (i + 1)) := by
        rw [kTransformKeyBits_eq, show 5 * (i + 1) = 5 * i + 5 from by omega, pow_add]
        ring
    _ ≤ 2 ^ (kTransformKeyBits * j) :=
        Nat.pow_le_pow_right (by omega) (Nat.mul_le_mul_left _ (by omega))

theorem shifted_fields_disjoint {a b : Nat} (ha : a < 32) (hb : b < 32)
    {i j : Nat} (hij : i ≠ j) :
    (a <<< (kTransformKeyBits * i)) &&& (b <<< (kTransformKeyBits * j)) = 0 := by
  rcases Nat.lt_or_ge i j with h | h
  · exact shifted_fields_disjoint_lt b ha h
  · rw [Nat.and_comm]
    exact shifted_fields_disjoint_lt a hb (by omega)

/-! ### C10: totality of the transform-key encoding up to six transforms -/

/-- C10: for a fragment stage declaring at most `32 / kTransformKeyBits = 6`
coordinate transforms, the per-transform fields occupy pairwise disjoint
bit ranges, the internal overlap assertion never fires (the encoding is
total on such stages), and a stage with zero transforms yields transform
key 0 — the same value `Build` passes for primitive and transfer stages. -/
theorem gen_transform_key_total_le_six (u : Bool) (stage : GrPendingFragmentStage)
    (i j : Nat) (hlen : stage.transforms.length ≤ 6)
    (hi : i < stage.transforms.length) (hj : j < stage.transforms.length)
    (hij : i ≠ j) :
    (gen_transform_key stage u).2 = true
  ∧ ((transform_key_one (stage.transforms.getD i defaultTransform) u <<<
        (kTransformKeyBits * i)) &&&
      (transform_key_one (stage.transforms.getD j defaultTransform) u <<<
        (kTransformKeyBits * j)) = 0)
  ∧ (gen_transform_key ⟨stage.processor, []⟩ u).1 = 0 := by
  refine ⟨?_, ?_, rfl⟩
  · exact gen_transform_key_go_snd u stage.transforms 0 0 (by omega)
      (Nat.pos_pow_of_pos _ (by omega))
  · exact shifted_fields_disjoint (transform_key_one_lt _ u)
      (transform_key_one_lt _ u) hij

/-- A stage with two transforms used to instantiate witnesses. -/
def trDeviceMed : PendingCoordTransform :=
  ⟨false, ⟨GrCoordSet.kDevice_GrCoordSet, GrSLPrecision.kMedium_GrSLPrecision⟩⟩

/-- Concrete two-transform stage for witnesses. -/
def stageTwo : GrPendingFragmentStage := ⟨⟨7, [], []⟩, [trPerspHigh, trDeviceMed]⟩

/-- C10 witness: the totality statement evaluated on a concrete stage. -/
theorem gen_transform_key_total_le_six_witness :
    (stageTwo.transforms.length ≤ 6 ∧ 0 < stageTwo.transforms.length ∧
      1 < stageTwo.transforms.length ∧ (0 : Nat) ≠ 1)
  ∧ ((gen_transform_key stageTwo false).2 = true
    ∧ ((transform_key_one (stageTwo.transforms.getD 0 defaultTransform) false <<<
          (kTransformKeyBits * 0)) &&&
        (transform_key_one (stageTwo.transforms.getD 1 defaultTransform) false <<<
          (kTransformKeyBits * 1)) = 0)
    ∧ (gen_transform_key ⟨stageTwo.processor, []⟩ false).1 = 0) :=
  ⟨⟨by decide, by decide, by decide, by decide⟩,
    gen_transform_key_total_le_six false stageTwo 0 1 (by decide) (by decide)
      (by decide) (by decide)⟩

/-! ### C6: per-transform field encoding -/

/-- C6: for transform index `t` of a stage with at most six transforms, the
generated key's bit `W*t` is set iff the transform is perspective, the two
bits above it hold the precision value, bit `W*t+3` is set iff the
transform is sourced from local coordinates and explicit local coordinates
are not in use, bit `W*t+4` is set iff it is sourced from device
coordinates, and the whole field is combined into the result at shift
`W*t` by bitwise OR (so OR-ing it in again changes nothing). -/
theorem gen_transform_key_field_encoding (u : Bool) (stage : GrPendingFragmentStage)
    (t : Nat) (hlen : stage.transforms.length ≤ 6) (ht : t < stage.transforms.length) :
    ((gen_transform_key stage u).1.testBit (kTransformKeyBits * t) =
      (stage.transforms.getD t defaultTransform).isPerspective)
  ∧ (((gen_transform_key stage u).1 >>> (kTransformKeyBits * t + 1)) &&& 3 =
      (stage.transforms.getD t defaultTransform).coordTransform.precision.toNat)
  ∧ ((gen_transform_key stage u).1.testBit (kTransformKeyBits * t + 3) =
      ((stage.transforms.getD t defaultTransform).coordTransform.sourceCoords ==
          GrCoordSet.kLocal_GrCoordSet && !u))
  ∧ ((gen_transform_key stage u).1.testBit (kTransformKeyBits * t + 4) =
      ((stage.transforms.getD t defaultTransform).coordTransform.sourceCoords ==
          GrCoordSet.kDevice_GrCoordSet))
  ∧ ((gen_transform_key stage u).1 |||
      (transform_key_one (stage.transforms.getD t defaultTransform) u <<<
        (kTransformKeyBits * t)) = (gen_transform_key stage u).1) := by
  have hkey := gen_transform_key_eq_sumFields u stage hlen
  have hslice := sumFields_slice u stage.transforms 0 t ht
  rw [Nat.zero_add] at hslice
  rw [← hkey] at hslice
  obtain ⟨hb0, hb12, hb3, hb4⟩ := transform_key_one_bits
    (stage.transforms.getD t defaultTransform) u
  refine ⟨?_, ?_, ?_, ?_, ?_⟩
  · have h := slice_testBit hslice (show 0 < 5 from by omega)
    rw [Nat.add_zero] at h
    rw [h, hb0]
  · rw [slice_bits12 hslice, hb12]
  · rw [slice_testBit hslice (show 3 < 5 from by omega), hb3]
  · rw [slice_testBit hslice (show 4 < 5 from by omega), hb4]
  · exact or_field_absorb (transform_key_one_lt _ u) hslice

/-- C6 witness: the field-encoding statement evaluated on a concrete stage. -/
theorem gen_transform_key_field_encoding_witness :
    (stageTwo.transforms.length ≤ 6 ∧ 1 < stageTwo.transforms.length)
  ∧ (((gen_transform_key stageTwo false).1.testBit (kTransformKeyBits * 1) =
      (stageTwo.transforms.getD 1 defaultTransform).isPerspective)
  ∧ (((gen_transform_key stageTwo false).1 >>> (kTransformKeyBits * 1 + 1)) &&& 3 =
      (stageTwo.transforms.getD 1 defaultTransform).coordTransform.precision.toNat)
  ∧ ((gen_transform_key stageTwo false).1.testBit (kTransformKeyBits * 1 + 3) =
      ((stageTwo.transforms.getD 1 defaultTransform).coordTransform.sourceCoords ==
          GrCoordSet.kLocal_GrCoordSet && !false))
  ∧ ((gen_transform_key stageTwo false).1.testBit (kTransformKeyBits * 1 + 4) =
      ((stageTwo.transforms.getD 1 defaultTransform).coordTransform.sourceCoords ==
          GrCoordSet.kDevice_GrCoordSet))
  ∧ ((gen_transform_key stageTwo false).1 |||
      (transform_key_one (stageTwo.transforms.getD 1 defaultTransform) false <<<
        (kTransformKeyBits * 1)) = (gen_transform_key stageTwo false).1)) :=
  ⟨⟨by decide, by decide⟩,
    gen_transform_key_field_encoding false stageTwo 1 (by decide) (by decide)⟩

/-! ### C4: per-stage private-key-size field -/

/-- Observer: the second meta-key word produced for a fragment stage
(0 if the stage's meta-key encoding fails). -/
def stageMetaWord1 (caps : GrGLCaps) (u : Bool) (fps : GrPendingFragmentStage) : Nat :=
  match get_meta_key fps.processor caps (gen_transform_key fps u).1
      (4 * fps.processor.glProcessorKey.length) with
  | some [_, w1] => w1
  | _ => 0

/-- Observer: the second meta-key word produced for the transfer stage. -/
def xferMetaWord1 (optState : GrOptDrawState) (caps : GrGLCaps) : Nat :=
  match get_meta_key optState.xp caps 0 (4 * optState.xp.glProcessorKey.length) with
  | some [_, w1] => w1
  | _ => 0

/-- A stage's meta-key fields all fit their 16-bit budgets. -/
def stageFitsBudget (caps : GrGLCaps) (u : Bool) (s : GrPendingFragmentStage) : Bool :=
  decide (gen_texture_key s.processor caps < 2 ^ 16) &&
  decide ((gen_transform_key s u).1 < 2 ^ 16) &&
  decide (s.processor.classID < 2 ^ 16) &&
  decide (4 * s.processor.glProcessorKey.length ≤ SK_MaxU16)

theorem get_meta_key_def (proc : GrProcessor) (caps : GrGLCaps) (tk p : Nat) :
    get_meta_key proc caps tk p =
      if ((gen_texture_key proc caps ||| tk ||| proc.classID) &&&
          kMetaKeyInvalidMask != 0) then none
      else if p > SK_MaxU16 then none
      else some [((gen_texture_key proc caps <<< 16) ||| tk) % 2 ^ 32,
                 ((proc.classID <<< 16) ||| (p % 2 ^ 16)) % 2 ^ 32] := rfl

theorem get_meta_key_eq_some {proc : GrProcessor} {caps : GrGLCaps}
    {tk p : Nat} {ws : List Nat} (h : get_meta_key proc caps tk p = some ws) :
    p ≤ SK_MaxU16 ∧
      ws = [((gen_texture_key proc caps <<< 16) ||| tk) % 2 ^ 32,
            ((proc.classID <<< 16) ||| (p % 2 ^ 16)) % 2 ^ 32] := by
  rw [get_meta_key_def] at h
  by_cases hA : ((gen_texture_key proc caps ||| tk ||| proc.classID) &&&
      kMetaKeyInvalidMask != 0) = true
  · rw [if_pos hA] at h
    exact absurd h (by simp)
  · rw [if_neg hA] at h
    by_cases hB : p > SK_MaxU16
    · rw [if_pos hB] at h
      exact absurd h (by simp)
    · rw [if_neg hB] at h
      exact ⟨by omega, (Option.some.inj h).symm⟩

theorem meta_word1_mod {cid p : Nat} (hp : p < 2 ^ 16) :
    ((cid <<< 16) ||| p) % 2 ^ 16 = p := by
  rw [Nat.shiftLeft_eq, Nat.or_comm,
    or_eq_add_of_lt_of_dvd hp (dvd_mul_left _ _),
    Nat.add_mul_mod_self_right, Nat.mod_eq_of_lt hp]

theorem buildFragmentStages_mem_isSome {caps : GrGLCaps} {u : Bool}
    {stages : List GrPendingFragmentStage} {fps : GrPendingFragmentStage}
    {words : List Nat} (hmem : fps ∈ stages)
    (hbuild : buildFragmentStages caps u stages = some words) :
    (get_meta_key fps.processor caps (gen_transform_key fps u).1
      (4 * fps.processor.glProcessorKey.length)).isSome = true := by
  induction stages generalizing words with
  | nil => cases hmem
  | cons s rest ih =>
    rw [buildFragmentStages] at hbuild
    rcases hs : get_meta_key s.processor caps (gen_transform_key s u).1
        (4 * s.processor.glProcessorKey.length) with _ | meta
    · rw [hs] at hbuild
      exact absurd hbuild (by simp)
    · rw [hs] at hbuild
      rcases hr : buildFragmentStages caps u rest with _ | restWords
      · rw [hr] at hbuild
        exact absurd hbuild (by simp)
      · rcases List.mem_cons.mp hmem with rfl | hmem2
        · rw [hs]
          rfl
        · exact ih hmem2 hr

theorem Build_success_xp_isSome {optState : GrOptDrawState} {descInfo : DescInfo}
    {drawType : DrawType} {caps : GrGLCaps}
    (h : (Build optState descInfo drawType caps).success = true) :
    (get_meta_key optState.xp caps 0
      (4 * optState.xp.glProcessorKey.length)).isSome = true := by
  unfold Build at h
  rcases hp : get_meta_key optState.primProc caps 0
      (4 * optState.primProc.glProcessorKey.length) with _ | pm
  · simp [hp] at h
  · rcases hf : buildFragmentStages caps descInfo.fRequiresLocalCoordAttrib
        optState.fragmentStages with _ | fws
    · simp [hp, hf] at h
    · rcases hx : get_meta_key optState.xp caps 0
          (4 * optState.xp.glProcessorKey.length) with _ | xm
      · simp [hp, hf, hx] at h
      · simp [hx]

theorem get_meta_key_isSome_of_fits {proc : GrProcessor} {caps : GrGLCaps}
    {tk p : Nat} (h1 : gen_texture_key proc caps < 2 ^ 16) (h2 : tk < 2 ^ 16)
    (h3 : proc.classID < 2 ^ 16) (h4 : p ≤ SK_MaxU16) :
    (get_meta_key proc caps tk p).isSome = true := by
  have hor : gen_texture_key proc caps ||| tk ||| proc.classID < 2 ^ 16 :=
    Nat.or_lt_two_pow (Nat.or_lt_two_pow h1 h2) h3
  have hzero : (gen_texture_key proc caps ||| tk ||| proc.classID) &&&
      kMetaKeyInvalidMask = 0 :=
    (and_invalidMask_eq_zero_iff (lt_of_lt_of_le hor (by norm_num))).mpr hor
  unfold get_meta_key
  rw [if_neg (by simp [hzero]), if_neg (by omega)]
  rfl

/-- The word extracted by `stageMetaWord1` when the meta key succeeds. -/
theorem stageMetaWord1_eq {caps : GrGLCaps} {u : Bool} {fps : GrPendingFragmentStage}
    (h : (get_meta_key fps.processor caps (gen_transform_key fps u).1
      (4 * fps.processor.glProcessorKey.length)).isSome = true) :
    stageMetaWord1 caps u fps % 2 ^ 16 = 4 * fps.processor.glProcessorKey.length := by
  rcases hs : get_meta_key fps.processor caps (gen_transform_key fps u).1
      (4 * fps.processor.glProcessorKey.length) with _ | ws
  · rw [hs] at h
    exact absurd h (by simp)
  · obtain ⟨hp, hws⟩ := get_meta_key_eq_some hs
    have hplt : 4 * fps.processor.glProcessorKey.length < 2 ^ 16 := by
      unfold SK_MaxU16 at hp
      omega
    have hmod : 4 * fps.processor.glProcessorKey.length % 2 ^ 16 =
        4 * fps.processor.glProcessorKey.length := Nat.mod_eq_of_lt hplt
    unfold stageMetaWord1
    rw [hs, hws]
    rw [Nat.mod_mod_of_dvd _ (by norm_num : (2 : Nat) ^ 16 ∣ 2 ^ 32), hmod,
      meta_word1_mod hplt]

/-- The word extracted by `xferMetaWord1` when the meta key succeeds. -/
theorem xferMetaWord1_eq {optState : GrOptDrawState} {caps : GrGLCaps}
    (h : (get_meta_key optState.xp caps 0
      (4 * optState.xp.glProcessorKey.length)).isSome = true) :
    xferMetaWord1 optState caps % 2 ^ 16 = 4 * optState.xp.glProcessorKey.length := by
  rcases hs : get_meta_key optState.xp caps 0
      (4 * optState.xp.glProcessorKey.length) with _ | ws
  · rw [hs] at h
    exact absurd h (by simp)
  · obtain ⟨hp, hws⟩ := get_meta_key_eq_some hs
    have hplt : 4 * optState.xp.glProcessorKey.length < 2 ^ 16 := by
      unfold SK_MaxU16 at hp
      omega
    have hmod : 4 * optState.xp.glProcessorKey.length % 2 ^ 16 =
        4 * optState.xp.glProcessorKey.length := Nat.mod_eq_of_lt hplt
    unfold xferMetaWord1
    rw [hs, hws]
    rw [Nat.mod_mod_of_dvd _ (by norm_num : (2 : Nat) ^ 16 ∣ 2 ^ 32), hmod,
      meta_word1_mod hplt]

theorem buildFragmentStages_isSome_of_fits {caps : GrGLCaps} {u : Bool} :
    ∀ ss : List GrPendingFragmentStage, ss.all (stageFitsBudget caps u) = true →
      (buildFragmentStages caps u ss).isSome = true := by
  intro ss
  induction ss with
  | nil =>
    intro _
    rfl
  | cons s rest ih =>
    intro hall
    rw [List.all_cons, Bool.and_eq_true] at hall
    have hfit := hall.1
    unfold stageFitsBudget at hfit
    simp only [Bool.and_eq_true, decide_eq_true_eq] at hfit
    have hhead := get_meta_key_isSome_of_fits hfit.1.1.1 hfit.1.1.2 hfit.1.2 hfit.2
    rcases hs : get_meta_key s.processor caps (gen_transform_key s u).1
        (4 * s.processor.glProcessorKey.length) with _ | meta
    · rw [hs] at hhead
      exact absurd hhead (by simp)
    · have hrest := ih hall.2
      rcases hr : buildFragmentStages caps u rest with _ | restWords
      · rw [hr] at hrest
        exact absurd hrest (by simp)
      · rw [buildFragmentStages, hs, hr]
        rfl

/-- C4: the low 16 bits of a stage's second meta-key word equal the byte
length of that stage's own private key (so a transfer stage with an empty
private key gets 0 there), and the 16-bit budget limits a single stage's
private key — any list of stages each of which individually fits the
budget is encoded successfully, with no cumulative-size condition. -/
theorem meta_key_private_size_field (caps : GrGLCaps) (u : Bool)
    (stages stages2 : List GrPendingFragmentStage) (fps : GrPendingFragmentStage)
    (words : List Nat) (optState : GrOptDrawState) (descInfo : DescInfo)
    (drawType : DrawType)
    (hmem : fps ∈ stages)
    (hbuild : buildFragmentStages caps u stages = some words)
    (hsucc : (Build optState descInfo drawType caps).success = true)
    (hfits : stages2.all (stageFitsBudget caps u) = true) :
    stageMetaWord1 caps u fps % 2 ^ 16 = 4 * fps.processor.glProcessorKey.length
  ∧ xferMetaWord1 optState caps % 2 ^ 16 = 4 * optState.xp.glProcessorKey.length
  ∧ (optState.xp.glProcessorKey = [] → xferMetaWord1 optState caps % 2 ^ 16 = 0)
  ∧ (buildFragmentStages caps u stages2).isSome = true := by
  have hxfer := xferMetaWord1_eq (Build_success_xp_isSome hsucc)
  refine ⟨stageMetaWord1_eq (buildFragmentStages_mem_isSome hmem hbuild), hxfer,
    ?_, buildFragmentStages_isSome_of_fits stages2 hfits⟩
  intro hempty
  rw [hxfer, hempty]
  rfl

/-- Concrete fragment stage: class ID 3, one private-key word, one
no-texture processor with one transform. -/
def fpsEx : GrPendingFragmentStage := ⟨⟨3, [9], []⟩, [trPerspHigh]⟩

/-- Concrete pipeline state: primitive processor, one fragment stage, and
a transfer processor with an empty private key. -/
def optStateEx : GrOptDrawState := ⟨⟨2, [7], []⟩, [fpsEx], ⟨1, [], []⟩, 1, 0, none, false⟩

/-- Concrete pipeline flags: nothing special. -/
def descInfoEx : DescInfo := ⟨false, false, false⟩

/-- C4 witness: the size-field statement evaluated on a concrete build. -/
theorem meta_key_private_size_field_witness :
    (fpsEx ∈ [fpsEx]
      ∧ buildFragmentStages capsNoHW false [fpsEx] = some [9, 13, 196612]
      ∧ (Build optStateEx descInfoEx DrawType.ordinaryDraw capsNoHW).success = true
      ∧ [fpsEx].all (stageFitsBudget capsNoHW false) = true)
  ∧ (stageMetaWord1 capsNoHW false fpsEx % 2 ^ 16 = 4 * fpsEx.processor.glProcessorKey.length
    ∧ xferMetaWord1 optStateEx capsNoHW % 2 ^ 16 = 4 * optStateEx.xp.glProcessorKey.length
    ∧ (optStateEx.xp.glProcessorKey = [] → xferMetaWord1 optStateEx capsNoHW % 2 ^ 16 = 0)
    ∧ (buildFragmentStages capsNoHW false [fpsEx]).isSome = true) :=
  ⟨⟨by decide, by decide, by decide, by decide⟩,
    meta_key_private_size_field capsNoHW false [fpsEx] [fpsEx] fpsEx [9, 13, 196612]
      optStateEx descInfoEx DrawType.ordinaryDraw (by decide) (by decide) (by decide)
      (by decide)⟩

/-! ### Logical normalization: identity fields never read by Build -/

/-- Erase the texture object's identity, keeping its logical configuration. -/
def GrTexture.norm (tx : GrTexture) : GrTexture := ⟨0, tx.configComponentMask⟩

/-- Normalize a texture access. -/
def GrTextureAccess.norm (a : GrTextureAccess) : GrTextureAccess :=
  ⟨a.texture.norm, a.swizzleMask⟩

/-- Normalize a processor. -/
def GrProcessor.norm (p : GrProcessor) : GrProcessor :=
  ⟨p.classID, p.glProcessorKey, p.textures.map GrTextureAccess.norm⟩

/-- Normalize a fragment stage. -/
def GrPendingFragmentStage.norm (s : GrPendingFragmentStage) : GrPendingFragmentStage :=
  ⟨s.processor.norm, s.transforms⟩

/-- Normalize a whole pipeline state: the logical content of the claim's
equality (stage sequence, class identities, private keys, transform and
texture configurations), with texture identities erased. -/
def GrOptDrawState.norm (s : GrOptDrawState) : GrOptDrawState :=
  ⟨s.primProc.norm, s.fragmentStages.map GrPendingFragmentStage.norm, s.xp.norm,
   s.numColorStages, s.renderTarget, s.dstCopy.map GrTexture.norm,
   s.hasGeometryProcessor⟩

theorem gen_texture_key_go_norm (caps : GrGLCaps) (l : List GrTextureAccess) :
    ∀ t key, gen_texture_key_go caps (l.map GrTextureAccess.norm) t key =
      gen_texture_key_go caps l t key := by
  induction l with
  | nil =>
    intro t key
    rfl
  | cons a rest ih =>
    intro t key
    rw [List.map_cons, gen_texture_key_go, gen_texture_key_go]
    exact ih (t + 1) _

theorem gen_texture_key_norm (p : GrProcessor) (caps : GrGLCaps) :
    gen_texture_key p.norm caps = gen_texture_key p caps :=
  gen_texture_key_go_norm caps p.textures 0 0

theorem get_meta_key_norm (p : GrProcessor) (caps : GrGLCaps) (tk sz : Nat) :
    get_meta_key p.norm caps tk sz = get_meta_key p caps tk sz := by
  rw [get_meta_key_def, get_meta_key_def, gen_texture_key_norm]
  rfl

theorem norm_glProcessorKey (p : GrProcessor) :
    p.norm.glProcessorKey = p.glProcessorKey := rfl

theorem buildFragmentStages_norm (caps : GrGLCaps) (u : Bool)
    (stages : List GrPendingFragmentStage) :
    buildFragmentStages caps u (stages.map GrPendingFragmentStage.norm) =
      buildFragmentStages caps u stages := by
  induction stages with
  | nil => rfl
  | cons s rest ih =>
    rw [List.map_cons, buildFragmentStages, buildFragmentStages]
    have h1 : get_meta_key s.norm.processor caps (gen_transform_key s.norm u).1
        (4 * s.norm.processor.glProcessorKey.length) =
          get_meta_key s.processor caps (gen_transform_key s u).1
            (4 * s.processor.glProcessorKey.length) :=
      get_meta_key_norm s.processor caps _ _
    rw [h1, ih]
    rfl

theorem KeyForDstRead_norm (d : Option GrTexture) (caps : GrGLCaps) :
    KeyForDstRead (d.map GrTexture.norm) caps = KeyForDstRead d caps := by
  cases d <;> rfl

theorem dstCopy_isSome_norm (d : Option GrTexture) :
    (d.map GrTexture.norm).isSome = d.isSome := by
  cases d <;> rfl

theorem numCoverageStages_norm (s : GrOptDrawState) :
    s.norm.numCoverageStages = s.numCoverageStages := by
  unfold GrOptDrawState.numCoverageStages GrOptDrawState.norm
  rw [List.length_map]

theorem Build_norm (optState : GrOptDrawState) (descInfo : DescInfo)
    (drawType : DrawType) (caps : GrGLCaps) :
    Build optState.norm descInfo drawType caps =
      Build optState descInfo drawType caps := by
  have hcov := numCoverageStages_norm optState
  unfold Build
  simp only [GrOptDrawState.norm, norm_glProcessorKey] at hcov ⊢
  rw [get_meta_key_norm, buildFragmentStages_norm, get_meta_key_norm,
    KeyForDstRead_norm, dstCopy_isSome_norm, hcov]

/-! ### C1: determinism of Build -/

/-- C1: two pipeline states that are logically equal (same stage sequence,
class identities, private keys, transform and texture configurations —
texture object identities excluded) together with equal flags, draw kind
and capabilities produce byte-identical output keys: the whole build
result, in particular the key contents and their length, coincide. -/
theorem Build_deterministic (s1 s2 : GrOptDrawState) (d1 d2 : DescInfo)
    (dt : DrawType) (caps : GrGLCaps)
    (hstate : s1.norm = s2.norm) (hflags : d1 = d2) :
    Build s1 d1 dt caps = Build s2 d2 dt caps
  ∧ (Build s1 d1 dt caps).fKey = (Build s2 d2 dt caps).fKey
  ∧ (Build s1 d1 dt caps).fKey.length = (Build s2 d2 dt caps).fKey.length := by
  have h : Build s1 d1 dt caps = Build s2 d2 dt caps := by
    rw [← Build_norm s1, ← Build_norm s2, hstate, hflags]
  exact ⟨h, by rw [h], by rw [h]⟩

/-- Pipeline state with texture identities and a destination-copy texture. -/
def stateIdA : GrOptDrawState :=
  ⟨⟨2, [7], [⟨⟨11, kA_GrColorComponentFlag⟩, kA_GrColorComponentFlag⟩]⟩, [fpsEx],
   ⟨1, [], []⟩, 1, 3, some ⟨21, 15⟩, false⟩

/-- The same logical state with different texture identities. -/
def stateIdB : GrOptDrawState :=
  ⟨⟨2, [7], [⟨⟨99, kA_GrColorComponentFlag⟩, kA_GrColorComponentFlag⟩]⟩, [fpsEx],
   ⟨1, [], []⟩, 1, 3, some ⟨77, 15⟩, false⟩

/-- C1 witness: two concrete states differing only in texture identities
build identical keys. -/
theorem Build_deterministic_witness :
    (stateIdA.norm = stateIdB.norm ∧ descInfoEx = descInfoEx)
  ∧ (Build stateIdA descInfoEx DrawType.ordinaryDraw capsNoHW =
      Build stateIdB descInfoEx DrawType.ordinaryDraw capsNoHW
    ∧ (Build stateIdA descInfoEx DrawType.ordinaryDraw capsNoHW).fKey =
        (Build stateIdB descInfoEx DrawType.ordinaryDraw capsNoHW).fKey
    ∧ (Build stateIdA descInfoEx DrawType.ordinaryDraw capsNoHW).fKey.length =
        (Build stateIdB descInfoEx DrawType.ordinaryDraw capsNoHW).fKey.length) :=
  ⟨⟨by decide, rfl⟩,
    Build_deterministic stateIdA stateIdB descInfoEx descInfoEx
      DrawType.ordinaryDraw capsNoHW (by decide) rfl⟩

/-! ### Texture canonicalization under hardware swizzle support -/

/-- Drop a processor's texture-access list entirely. -/
def GrProcessor.clearTextures (p : GrProcessor) : GrProcessor :=
  ⟨p.classID, p.glProcessorKey, []⟩

/-- Drop a fragment stage's texture accesses. -/
def GrPendingFragmentStage.clearTextures (s : GrPendingFragmentStage) :
    GrPendingFragmentStage :=
  ⟨s.processor.clearTextures, s.transforms⟩

/-- Drop every stage's texture accesses from a pipeline state. -/
def GrOptDrawState.clearTextures (s : GrOptDrawState) : GrOptDrawState :=
  ⟨s.primProc.clearTextures, s.fragmentStages.map GrPendingFragmentStage.clearTextures,
   s.xp.clearTextures, s.numColorStages, s.renderTarget, s.dstCopy,
   s.hasGeometryProcessor⟩

theorem gen_texture_key_go_hw {caps : GrGLCaps} (hw : caps.textureSwizzleSupport = true)
    (l : List GrTextureAccess) : ∀ t key, gen_texture_key_go caps l t key = key := by
  induction l with
  | nil =>
    intro t key
    rfl
  | cons a rest ih =>
    intro t key
    rw [gen_texture_key_go]
    have hsw : swizzle_requires_alpha_remapping caps
        a.texture.configComponentMask a.swizzleMask = false := by
      unfold swizzle_requires_alpha_remapping
      rw [if_pos hw]
    rw [if_neg (by simp [hsw])]
    exact ih (t + 1) key

theorem gen_texture_key_hw {caps : GrGLCaps} (hw : caps.textureSwizzleSupport = true)
    (p : GrProcessor) : gen_texture_key p caps = 0 :=
  gen_texture_key_go_hw hw p.textures 0 0

theorem get_meta_key_hw {caps : GrGLCaps} (hw : caps.textureSwizzleSupport = true)
    (p : GrProcessor) (tk sz : Nat) :
    get_meta_key p.clearTextures caps tk sz = get_meta_key p caps tk sz := by
  rw [get_meta_key_def, get_meta_key_def, gen_texture_key_hw hw,
    gen_texture_key_hw hw]
  rfl

theorem buildFragmentStages_hw {caps : GrGLCaps} (hw : caps.textureSwizzleSupport = true)
    (u : Bool) (stages : List GrPendingFragmentStage) :
    buildFragmentStages caps u (stages.map GrPendingFragmentStage.clearTextures) =
      buildFragmentStages caps u stages := by
  induction stages with
  | nil => rfl
  | cons s rest ih =>
    rw [List.map_cons, buildFragmentStages, buildFragmentStages]
    have h1 : get_meta_key s.clearTextures.processor caps
        (gen_transform_key s.clearTextures u).1
        (4 * s.clearTextures.processor.glProcessorKey.length) =
          get_meta_key s.processor caps (gen_transform_key s u).1
            (4 * s.processor.glProcessorKey.length) :=
      get_meta_key_hw hw s.processor _ _
    rw [h1, ih]
    rfl

theorem numCoverageStages_clearTextures (s : GrOptDrawState) :
    s.clearTextures.numCoverageStages = s.numCoverageStages := by
  unfold GrOptDrawState.numCoverageStages GrOptDrawState.clearTextures
  rw [List.length_map]

theorem Build_clearTextures {caps : GrGLCaps} (hw : caps.textureSwizzleSupport = true)
    (optState : GrOptDrawState) (descInfo : DescInfo) (drawType : DrawType) :
    Build optState.clearTextures descInfo drawType caps =
      Build optState descInfo drawType caps := by
  have hcov := numCoverageStages_clearTextures optState
  have hclr : ∀ p : GrProcessor, p.clearTextures.glProcessorKey = p.glProcessorKey :=
    fun _ => rfl
  unfold Build
  simp only [GrOptDrawState.clearTextures, hclr] at hcov ⊢
  rw [get_meta_key_hw hw, buildFragmentStages_hw hw, get_meta_key_hw hw, hcov]

/-! ### C8: canonicalization under hardware swizzle support -/

/-- C8: with hardware swizzle support, the texture key is 0 for every
stage regardless of texture formats, and two inputs that differ only in
their stages' texture accesses (formats and swizzles) produce identical
output keys. -/
theorem Build_canonicalizes_textures (s1 s2 : GrOptDrawState) (d1 d2 : DescInfo)
    (dt : DrawType) (caps : GrGLCaps) (proc : GrProcessor)
    (hw : caps.textureSwizzleSupport = true)
    (hstate : s1.clearTextures = s2.clearTextures) (hflags : d1 = d2) :
    gen_texture_key proc caps = 0
  ∧ Build s1 d1 dt caps = Build s2 d2 dt caps
  ∧ (Build s1 d1 dt caps).fKey = (Build s2 d2 dt caps).fKey := by
  have h : Build s1 d1 dt caps = Build s2 d2 dt caps := by
    rw [← Build_clearTextures hw s1, ← Build_clearTextures hw s2, hstate, hflags]
  exact ⟨gen_texture_key_hw hw proc, h, by rw [h]⟩

/-- Capability set with hardware swizzle support. -/
def capsHW : GrGLCaps := ⟨true, false, false, false⟩

/-- A state whose primitive processor samples an alpha-only texture. -/
def stateTexA : GrOptDrawState :=
  ⟨⟨2, [7], [⟨⟨0, kA_GrColorComponentFlag⟩, kRGB_GrColorComponentFlags⟩]⟩, [fpsEx],
   ⟨1, [], []⟩, 1, 0, none, false⟩

/-- The same state with a different texture format/swizzle combination. -/
def stateTexB : GrOptDrawState :=
  ⟨⟨2, [7], [⟨⟨0, 15⟩, kA_GrColorComponentFlag⟩]⟩, [fpsEx],
   ⟨1, [], []⟩, 1, 0, none, false⟩

/-- C8 witness: two concrete states differing only in texture formats and
swizzles build identical keys under hardware swizzle support. -/
theorem Build_canonicalizes_textures_witness :
    (capsHW.textureSwizzleSupport = true
      ∧ stateTexA.clearTextures = stateTexB.clearTextures ∧ descInfoEx = descInfoEx)
  ∧ (gen_texture_key stateTexA.primProc capsHW = 0
    ∧ Build stateTexA descInfoEx DrawType.ordinaryDraw capsHW =
        Build stateTexB descInfoEx DrawType.ordinaryDraw capsHW
    ∧ (Build stateTexA descInfoEx DrawType.ordinaryDraw capsHW).fKey =
        (Build stateTexB descInfoEx DrawType.ordinaryDraw capsHW).fKey) :=
  ⟨⟨by decide, by decide, rfl⟩,
    Build_canonicalizes_textures stateTexA stateTexB descInfoEx descInfoEx
      DrawType.ordinaryDraw capsHW stateTexA.primProc (by decide) (by decide) rfl⟩

/-! ### C9: header round-trip -/

theorem KeyForDstRead_pos (d : Option GrTexture) (caps : GrGLCaps) :
    0 < KeyForDstRead d caps := by
  cases d
  · exact Nat.one_pos
  · show 0 < 2 + _
    omega

theorem KeyForFragmentPosition_pos (rt : Nat) (caps : GrGLCaps) :
    0 < KeyForFragmentPosition rt caps := by
  unfold KeyForFragmentPosition
  omega

theorem Build_eq_some {optState : GrOptDrawState} {descInfo : DescInfo}
    {drawType : DrawType} {caps : GrGLCaps} {pm fws xm : List Nat}
    (hp : get_meta_key optState.primProc caps 0
      (4 * optState.primProc.glProcessorKey.length) = some pm)
    (hf : buildFragmentStages caps descInfo.fRequiresLocalCoordAttrib
      optState.fragmentStages = some fws)
    (hx : get_meta_key optState.xp caps 0
      (4 * optState.xp.glProcessorKey.length) = some xm) :
    Build optState descInfo drawType caps =
      ⟨true,
       headerWords
         ⟨caps.pathRenderingSupport && IsPathRenderingDrawType drawType,
          (if descInfo.fReadsDst then KeyForDstRead optState.dstCopy caps else 0),
          (if descInfo.fReadsFragPosition then
            KeyForFragmentPosition optState.renderTarget caps else 0),
          optState.numColorStages, optState.numCoverageStages⟩ ++
         (optState.primProc.glProcessorKey ++ pm ++ fws ++
          optState.xp.glProcessorKey ++ xm),
       (!(caps.pathRenderingSupport && IsPathRenderingDrawType drawType) ||
          !optState.hasGeometryProcessor) &&
       (!descInfo.fReadsDst || (optState.dstCopy.isSome || caps.dstReadInShaderSupport)) &&
       (!descInfo.fReadsDst ||
         ((if descInfo.fReadsDst then KeyForDstRead optState.dstCopy caps else 0) != 0))⟩ := by
  unfold Build
  simp only [hp, hf, hx]

/-- C9: after a successful build the header zone holds exactly the step-6
values — hardware-path flag true iff path rendering is supported and the
draw kind is a path draw; destination-read encoding nonzero iff the
reads-destination flag is set; fragment-position encoding zero when its
flag is clear; color- and coverage-stage counts copied from pipeline
state — with all padding words zero, and a reads-destination or
reads-fragment-position flag paired with a zero encoding makes the debug
assertions fail. -/
theorem Build_header_roundtrip (optState : GrOptDrawState) (descInfo : DescInfo)
    (drawType : DrawType) (caps : GrGLCaps)
    (hsucc : (Build optState descInfo drawType caps).success = true) :
    ((Build optState descInfo drawType caps).fKey.getD 0 0 =
      if caps.pathRenderingSupport && IsPathRenderingDrawType drawType then 1 else 0)
  ∧ (((Build optState descInfo drawType caps).fKey.getD 1 0 ≠ 0) ↔
      descInfo.fReadsDst = true)
  ∧ (descInfo.fReadsFragPosition = false →
      (Build optState descInfo drawType caps).fKey.getD 2 0 = 0)
  ∧ ((Build optState descInfo drawType caps).fKey.getD 3 0 = optState.numColorStages)
  ∧ ((Build optState descInfo drawType caps).fKey.getD 4 0 =
      optState.numCoverageStages)
  ∧ ((Build optState descInfo drawType caps).fKey.getD 5 0 = 0)
  ∧ ((Build optState descInfo drawType caps).fKey.getD 6 0 = 0)
  ∧ ((Build optState descInfo drawType caps).fKey.getD 7 0 = 0)
  ∧ (descInfo.fReadsDst = true →
      (Build optState descInfo drawType caps).fKey.getD 1 0 = 0 →
      (Build optState descInfo drawType caps).debugAssertsOk = false)
  ∧ (descInfo.fReadsFragPosition = true →
      (Build optState descInfo drawType caps).fKey.getD 2 0 = 0 →
      (Build optState descInfo drawType caps).debugAssertsOk = false) := by
  rcases hp : get_meta_key optState.primProc caps 0
      (4 * optState.primProc.glProcessorKey.length) with _ | pm
  · exfalso
    simp [Build, hp] at hsucc
  rcases hf : buildFragmentStages caps descInfo.fRequiresLocalCoordAttrib
      optState.fragmentStages with _ | fws
  · exfalso
    simp [Build, hp, hf] at hsucc
  rcases hx : get_meta_key optState.xp caps 0
      (4 * optState.xp.glProcessorKey.length) with _ | xm
  · exfalso
    simp [Build, hp, hf, hx] at hsucc
  have hB := @Build_eq_some optState descInfo drawType caps pm fws xm hp hf hx
  rw [hB]
  simp only [headerWords, List.cons_append, List.nil_append, List.getD_cons_zero,
    List.getD_cons_succ]
  refine ⟨trivial, ?_, ?_, trivial, trivial, trivial, trivial, trivial, ?_, ?_⟩
  · by_cases hd : descInfo.fReadsDst
    · rw [if_pos hd]
      have := KeyForDstRead_pos optState.dstCopy caps
      constructor
      · intro _
        exact hd
      · intro _
        omega
    · rw [if_neg hd]
      constructor
      · intro h0
        exact absurd rfl h0
      · intro hcontra
        exact absurd hcontra hd
  · intro hfp
    rw [hfp]
    rfl
  · intro hd hzero
    rw [if_pos (by rw [hd])] at hzero
    have := KeyForDstRead_pos optState.dstCopy caps
    omega
  · intro hfp hzero
    rw [if_pos (by rw [hfp])] at hzero
    have := KeyForFragmentPosition_pos optState.renderTarget caps
    omega

/-- Pipeline flags with destination read and fragment-position read set. -/
def descInfoDst : DescInfo := ⟨false, true, true⟩

/-- Concrete pipeline state with a bound destination-copy texture. -/
def stateDst : GrOptDrawState :=
  ⟨⟨2, [7], []⟩, [fpsEx], ⟨1, [], []⟩, 1, 3, some ⟨21, 15⟩, false⟩

/-- C9 witness: the header statement evaluated on a concrete successful
build that reads the destination and the fragment position. -/
theorem Build_header_roundtrip_witness :
    (Build stateDst descInfoDst DrawType.ordinaryDraw capsNoHW).success = true
  ∧ (((Build stateDst descInfoDst DrawType.ordinaryDraw capsNoHW).fKey.getD 0 0 =
      if capsNoHW.pathRenderingSupport && IsPathRenderingDrawType DrawType.ordinaryDraw
      then 1 else 0)
  ∧ (((Build stateDst descInfoDst DrawType.ordinaryDraw capsNoHW).fKey.getD 1 0 ≠ 0) ↔
      descInfoDst.fReadsDst = true)
  ∧ (descInfoDst.fReadsFragPosition = false →
      (Build stateDst descInfoDst DrawType.ordinaryDraw capsNoHW).fKey.getD 2 0 = 0)
  ∧ ((Build stateDst descInfoDst DrawType.ordinaryDraw capsNoHW).fKey.getD 3 0 =
      stateDst.numColorStages)
  ∧ ((Build stateDst descInfoDst DrawType.ordinaryDraw capsNoHW).fKey.getD 4 0 =
      stateDst.numCoverageStages)
  ∧ ((Build stateDst descInfoDst DrawType.ordinaryDraw capsNoHW).fKey.getD 5 0 = 0)
  ∧ ((Build stateDst descInfoDst DrawType.ordinaryDraw capsNoHW).fKey.getD 6 0 = 0)
  ∧ ((Build stateDst descInfoDst DrawType.ordinaryDraw capsNoHW).fKey.getD 7 0 = 0)
  ∧ (descInfoDst.fReadsDst = true →
      (Build stateDst descInfoDst DrawType.ordinaryDraw capsNoHW).fKey.getD 1 0 = 0 →
      (Build stateDst descInfoDst DrawType.ordinaryDraw capsNoHW).debugAssertsOk = false)
  ∧ (descInfoDst.fReadsFragPosition = true →
      (Build stateDst descInfoDst DrawType.ordinaryDraw capsNoHW).fKey.getD 2 0 = 0 →
      (Build stateDst descInfoDst DrawType.ordinaryDraw capsNoHW).debugAssertsOk = false)) :=
  ⟨by decide,
    Build_header_roundtrip stateDst descInfoDst DrawType.ordinaryDraw capsNoHW (by decide)⟩

end GrGLProgramDesc
